import Mathlib

/-!
Verification of the token-bucket rate limiter of
`blakearoberts/redis-token-bucket-rate-limiter` (`src/limiter/limiter.go`).

Modelling conventions.  Times, durations and intervals are whole seconds,
embedded as integers; Go `float64` quantities (token counts, rates) are
embedded as rationals; Go `int` / `int64` values as integers.  The shared
store is modelled per key: each call receives the addressed key's stored
record — `Option (ℚ × ℤ)`, the token count and the last-refill unix time, or
`none` when the key is absent — and returns the decision together with the
record as it stands after the call.  The key string itself is not consulted
by the algorithm beyond addressing, so it is dropped from the shared-store
embedding.  Store errors are modelled by the `Faults` flags, one per fallible
store interaction of `redisLimiter.allowN`; a set flag means that interaction
returns an error on this call.
-/

/-- Go `int64` division, as in `since / l.interval` in `redisLimiter.allowN`:
truncation toward zero. -/
def goDiv (a b : ℤ) : ℤ := a.tdiv b

/-- Go `time.Truncate`: round `t` down to a multiple of `i`; Go returns `t`
unchanged for a non-positive duration `i`. -/
def gtrunc (t i : ℤ) : ℤ := if i ≤ 0 then t else t - t % i

/-- Configuration of a `redisLimiter` (fields `rate`, `burst`, `interval`,
`failOpen` of the Go struct, limiter.go lines 55-62). -/
structure RConfig where
  rate : ℚ
  burst : ℤ
  interval : ℤ
  failOpen : Bool

/-- Outcomes of the per-call store interactions of `redisLimiter.allowN`:
failure of the `LRANGE` read (limiter.go 150-154), of the `LPUSH`
initialization write (160-164), of `redis.Scan` decoding the stored fields
(170-173), and of the `MULTI`/`LSET`/`EXEC` write-back (197-204). -/
structure Faults where
  readFail : Bool
  initFail : Bool
  decodeFail : Bool
  execFail : Bool

/-- Fault assignment of an error-free call. -/
def noFaults : Faults := ⟨false, false, false, false⟩

/-- Number of whole intervals since the last refill: `since / l.interval`
(limiter.go 179) with `since = now - trunc(last)` (limiter.go 178). -/
def elapsedIntervals (last now i : ℤ) : ℤ := goDiv (now - gtrunc last i) i

/-- Refilled token count computed before consumption (limiter.go 178-183):
`min(tokens + float64(since/interval) * rate, float64(burst))`. -/
def refilled (tokens : ℚ) (last now : ℤ) (rate : ℚ) (burst i : ℤ) : ℚ :=
  min (tokens + (elapsedIntervals last now i : ℚ) * rate) (burst : ℚ)

namespace redisLimiter

/-- Embedding of `redisLimiter.allowN` (limiter.go 145-207), acting on the
addressed key's record.  Every store error collapses to `failOpen`
(151-153, 161-163, 171-172, 201-203).  A missing key is initialized by the
multi-value `LPUSH key float64(burst-1) now` of line 160 and accepted
(156-166): the store inserts the pushed values head-first, so the stored list
is `[nowT, burst-1]` and — per the decoding of lines 168-170, which reads
element 0 as `tokens` and element 1 as `last` — the tokens field receives the
truncated timestamp and the lastRefill field receives `burst - 1`.  An
existing record is refilled (175-183), rejected without a write when short of
`n` (185-188), and otherwise written back by index (`LSET` at 198-199) with
`n` tokens consumed, in the intended field order (190-206). -/
def allowN (cfg : RConfig) (n : ℤ) (rate : ℚ) (burst : ℤ) (now : ℤ)
    (st : Option (ℚ × ℤ)) (f : Faults) : Bool × Option (ℚ × ℤ) :=
  if f.readFail then (cfg.failOpen, st)
  else
    match st with
    | none =>
        if f.initFail then (cfg.failOpen, st)
        else (true, some (((gtrunc now cfg.interval : ℤ) : ℚ), burst - 1))
    | some (tokens, last) =>
        if f.decodeFail then (cfg.failOpen, st)
        else
          let tk := refilled tokens last now rate burst cfg.interval
          if tk < (n : ℚ) then (false, st)
          else if f.execFail then (cfg.failOpen, st)
          else (true, some (tk - (n : ℚ), gtrunc now cfg.interval))

/-- Embedding of `redisLimiter.Allow` (limiter.go 122-124). -/
def Allow (cfg : RConfig) (now : ℤ) (st : Option (ℚ × ℤ)) (f : Faults) :
    Bool × Option (ℚ × ℤ) :=
  allowN cfg 1 cfg.rate cfg.burst now st f

/-- Embedding of `redisLimiter.AllowN` (limiter.go 126-128). -/
def AllowN (cfg : RConfig) (n : ℤ) (now : ℤ) (st : Option (ℚ × ℤ))
    (f : Faults) : Bool × Option (ℚ × ℤ) :=
  allowN cfg n cfg.rate cfg.burst now st f

/-- Embedding of `redisLimiter.AllowDynamic` (limiter.go 133-135). -/
def AllowDynamic (cfg : RConfig) (rate : ℚ) (burst : ℤ) (now : ℤ)
    (st : Option (ℚ × ℤ)) (f : Faults) : Bool × Option (ℚ × ℤ) :=
  allowN cfg 1 rate burst now st f

/-- Embedding of `redisLimiter.AllowNDynamic` (limiter.go 137-139). -/
def AllowNDynamic (cfg : RConfig) (n : ℤ) (rate : ℚ) (burst : ℤ) (now : ℤ)
    (st : Option (ℚ × ℤ)) (f : Faults) : Bool × Option (ℚ × ℤ) :=
  allowN cfg n rate burst now st f

/-- Modelled from the spec: a `Rate()` accessor is not present under `src/`;
spec section 4.1 has it report the limiter's default configured rate,
independent of any per-key override (it reads the configuration only). -/
def Rate (cfg : RConfig) : ℚ := cfg.rate

/-- Modelled from the spec: a `Burst()` accessor is not present under `src/`;
spec section 4.1 has it report the limiter's default configured burst,
independent of any per-key override (it reads the configuration only). -/
def Burst (cfg : RConfig) : ℤ := cfg.burst

end redisLimiter

namespace disabledLimiter

/-- Embedding of `disabledLimiter.Allow` (limiter.go 254-256). -/
def Allow (_key : String) : Bool := true

/-- Embedding of `disabledLimiter.AllowN` (limiter.go 258-260). -/
def AllowN (_key : String) (_n : ℤ) : Bool := true

/-- Embedding of `disabledLimiter.AllowDynamic` (limiter.go 262-264). -/
def AllowDynamic (_key : String) (_rate : ℚ) (_burst : ℤ) : Bool := true

/-- Embedding of `disabledLimiter.AllowNDynamic` (limiter.go 266-268). -/
def AllowNDynamic (_key : String) (_n : ℤ) (_rate : ℚ) (_burst : ℤ) : Bool :=
  true

/-- Largest finite `float64` value, Go `math.MaxFloat64`, which equals
`(2^53 - 1) * 2^971` exactly. -/
def maxFloat64 : ℚ := (2 ^ 53 - 1) * 2 ^ 971

/-- Modelled from the spec: a `Rate()` accessor is not present under `src/`;
spec section 4.5 has the disabled backend report the maximum representable
value. -/
def Rate : ℚ := maxFloat64

/-- Modelled from the spec: a `Burst()` accessor is not present under `src/`;
spec section 4.5 has the disabled backend report zero. -/
def Burst : ℤ := 0

end disabledLimiter

/-- Per-key bucket of the local in-memory registry: token count, last refill
time, and the key's effective rate and burst. -/
structure LocalBucket where
  tokens : ℚ
  last : ℤ
  erate : ℚ
  eburst : ℤ

/-- Configuration of an `inMemoryLimiter` (fields `rate`, `burst`, `interval`
of the Go struct, limiter.go 65-72). -/
structure IMConfig where
  rate : ℚ
  burst : ℤ
  interval : ℤ

namespace inMemoryLimiter

/-- Modelled from the spec: the in-memory backend keeps each key's bucket in
a `golang.org/x/time/rate` limiter, whose code is not under `src/`.
Following spec sections 4.2 and 4.4, accrual up to the truncated current time
`nowT` is settled at the bucket's current effective rate, capped at its
current effective burst, with a non-negative number of elapsed intervals. -/
def settle (i nowT : ℤ) (bk : LocalBucket) : LocalBucket :=
  ⟨min (bk.tokens + ((max 0 (goDiv (nowT - bk.last) i) : ℤ) : ℚ) * bk.erate)
      (bk.eburst : ℚ),
    nowT, bk.erate, bk.eburst⟩

/-- Modelled from the spec: `inMemoryLimiter.allowN` (limiter.go 225-252)
delegates bucket state to `golang.org/x/time/rate`, which is not under
`src/`.  Following spec sections 4.2 and 4.4: a missing bucket is created
seeded with the full requested burst at the truncated current time; a
differing requested rate or burst is persisted at the truncated current time
after settling accrual at the old values; the call then consumes `n` tokens
when the settled count covers them and rejects without changing the bucket
otherwise. -/
def allowN (i n : ℤ) (rate : ℚ) (burst : ℤ) (now : ℤ)
    (st : Option LocalBucket) : Bool × LocalBucket :=
  let nowT := gtrunc now i
  let bk :=
    match st with
    | none => ⟨(burst : ℚ), nowT, rate, burst⟩
    | some bk =>
        if bk.erate = rate ∧ bk.eburst = burst then bk
        else
          let s := settle i nowT bk
          ⟨s.tokens, s.last, rate, burst⟩
  let s := settle i nowT bk
  if s.tokens < (n : ℚ) then (false, bk)
  else (true, ⟨s.tokens - (n : ℚ), nowT, bk.erate, bk.eburst⟩)

/-- Modelled from the spec: a `Rate()` accessor is not present under `src/`;
spec section 4.1 has it report the limiter's default configured rate,
independent of any per-key override (it reads the configuration only). -/
def Rate (c : IMConfig) : ℚ := c.rate

/-- Modelled from the spec: a `Burst()` accessor is not present under `src/`;
spec section 4.1 has it report the limiter's default configured burst,
independent of any per-key override (it reads the configuration only). -/
def Burst (c : IMConfig) : ℤ := c.burst

end inMemoryLimiter

/-! Helper lemmas shared by the claim theorems. -/

/-- The refilled token count never exceeds the effective burst. -/
lemma refilled_le_burst (tokens : ℚ) (last now : ℤ) (rate : ℚ) (burst i : ℤ) :
    refilled tokens last now rate burst i ≤ (burst : ℚ) :=
  min_le_right _ _

/-- The settled token count of a local bucket never exceeds its effective
burst. -/
lemma settle_tokens_le (i nowT : ℤ) (bk : LocalBucket) :
    (inMemoryLimiter.settle i nowT bk).tokens ≤ (bk.eburst : ℚ) :=
  min_le_right _ _

/-- Unfolding lemma for `redisLimiter.allowN` on an existing decodable record
with no read or decode fault. -/
lemma allowN_some_eq (cfg : RConfig) (n : ℤ) (rate : ℚ) (burst : ℤ)
    (tokens : ℚ) (last now : ℤ) (f : Faults)
    (hr : f.readFail = false) (hd : f.decodeFail = false) :
    redisLimiter.allowN cfg n rate burst now (some (tokens, last)) f
      = (if refilled tokens last now rate burst cfg.interval < (n : ℚ) then
          (false, some (tokens, last))
        else if f.execFail then (cfg.failOpen, some (tokens, last))
        else (true, some (refilled tokens last now rate burst cfg.interval
                - (n : ℚ), gtrunc now cfg.interval))) := by
  simp only [redisLimiter.allowN, hr, Bool.false_eq_true, if_false, hd]

/-- Rejection shape of `redisLimiter.allowN` on an existing decodable record:
a refilled count short of `n` returns false and leaves the record as read. -/
lemma allowN_reject (cfg : RConfig) (n : ℤ) (rate : ℚ) (burst : ℤ)
    (tokens : ℚ) (last now : ℤ) (f : Faults)
    (hr : f.readFail = false) (hd : f.decodeFail = false)
    (hlt : refilled tokens last now rate burst cfg.interval < (n : ℚ)) :
    redisLimiter.allowN cfg n rate burst now (some (tokens, last)) f
      = (false, some (tokens, last)) := by
  rw [allowN_some_eq cfg n rate burst tokens last now f hr hd, if_pos hlt]

/-- First-touch shape of `redisLimiter.allowN`: a missing record with no read
or initialization fault is accepted, and the head-first multi-value `LPUSH`
leaves the record `(trunc now, burst - 1)` — timestamp in the tokens field,
`burst - 1` in the lastRefill field. -/
lemma allowN_none_eq (cfg : RConfig) (n : ℤ) (rate : ℚ) (burst : ℤ)
    (now : ℤ) (f : Faults) (hr : f.readFail = false) (hi : f.initFail = false) :
    redisLimiter.allowN cfg n rate burst now none f
      = (true, some (((gtrunc now cfg.interval : ℤ) : ℚ), burst - 1)) := by
  simp only [redisLimiter.allowN, hr, Bool.false_eq_true, if_false, hi]

/-- Truncating a non-negative time yields a non-negative time. -/
lemma gtrunc_nonneg (t i : ℤ) (ht : 0 ≤ t) : 0 ≤ gtrunc t i := by
  rw [gtrunc]
  split
  · exact ht
  · rename_i hneg
    have hi : 0 < i := lt_of_not_le hneg
    have hq : t - t % i = i * (t / i) := by
      have := Int.ediv_add_emod t i
      linarith
    rw [hq]
    exact mul_nonneg (le_of_lt hi) (Int.ediv_nonneg ht (le_of_lt hi))

/-- C2: the claim — and the code's own comment at limiter.go 141-144 and the
integration test in tests/main_test.go — say a first touch initializes the
record with `tokens = burst - 1` and `lastRefill = nowT`, but the multi-value
`LPUSH` of limiter.go 160 inserts head-first, storing the list
`[nowT, burst - 1]`: at the failing input (burst 2, truncated now 100, n = 1)
the call does return true, yet the record it writes carries the timestamp 100
in the tokens field — not `burst - 1 = 1` — and `burst - 1` in the lastRefill
field, so the claimed record is not what the program stores. -/
theorem C2_first_touch :
    redisLimiter.allowN ⟨1, 2, 1, false⟩ 1 1 2 100 none noFaults
      = (true, some (100, 1))
    ∧ ((100 : ℚ) ≠ (2 : ℚ) - 1) := by
  constructor
  · rw [allowN_none_eq ⟨1, 2, 1, false⟩ 1 1 2 100 noFaults rfl rfl]
    norm_num [gtrunc]
  · norm_num

/-- C3: every per-call store error — read failure, initialization-write
failure, decode failure of the stored fields, or write-back failure after a
successful read and accept decision — makes the call return exactly the
configured `failOpen` boolean, and each facade method `Allow`, `AllowN`,
`AllowDynamic`, `AllowNDynamic` equals the shared `allowN`, so the law covers
all four; the embedding is a total boolean-valued function, so no error is
ever propagated. -/
theorem C3_fail_open (cfg : RConfig) (n : ℤ) (rate : ℚ) (burst : ℤ)
    (now : ℤ) (st : Option (ℚ × ℤ)) (tokens : ℚ) (last : ℤ) (f : Faults) :
    (f.readFail = true →
      (redisLimiter.allowN cfg n rate burst now st f).1 = cfg.failOpen)
    ∧ (f.readFail = false → f.initFail = true →
      (redisLimiter.allowN cfg n rate burst now none f).1 = cfg.failOpen)
    ∧ (f.readFail = false → f.decodeFail = true →
      (redisLimiter.allowN cfg n rate burst now (some (tokens, last)) f).1
        = cfg.failOpen)
    ∧ (f.readFail = false → f.decodeFail = false → f.execFail = true →
      (n : ℚ) ≤ refilled tokens last now rate burst cfg.interval →
      (redisLimiter.allowN cfg n rate burst now (some (tokens, last)) f).1
        = cfg.failOpen)
    ∧ redisLimiter.Allow cfg now st f
        = redisLimiter.allowN cfg 1 cfg.rate cfg.burst now st f
    ∧ redisLimiter.AllowN cfg n now st f
        = redisLimiter.allowN cfg n cfg.rate cfg.burst now st f
    ∧ redisLimiter.AllowDynamic cfg rate burst now st f
        = redisLimiter.allowN cfg 1 rate burst now st f
    ∧ redisLimiter.AllowNDynamic cfg n rate burst now st f
        = redisLimiter.allowN cfg n rate burst now st f := by
  refine ⟨?_, ?_, ?_, ?_, rfl, rfl, rfl, rfl⟩
  · intro h
    simp [redisLimiter.allowN, h]
  · intro h1 h2
    simp [redisLimiter.allowN, h1, h2]
  · intro h1 h2
    simp [redisLimiter.allowN, h1, h2]
  · intro h1 h2 h3 h4
    rw [allowN_some_eq cfg n rate burst tokens last now f h1 h2,
      if_neg (not_lt.mpr h4), if_pos h3]

/-- Witness for C3 at concrete inputs: each of the four fault points yields
the configured fail-open boolean. -/
theorem C3_fail_open_witness :
    (redisLimiter.allowN ⟨1, 5, 1, true⟩ 1 1 5 0 none
      ⟨true, false, false, false⟩).1 = true
    ∧ (redisLimiter.allowN ⟨1, 5, 1, false⟩ 1 1 5 0 none
      ⟨false, true, false, false⟩).1 = false
    ∧ (redisLimiter.allowN ⟨1, 5, 1, true⟩ 1 1 5 0 (some (3, 0))
      ⟨false, false, true, false⟩).1 = true
    ∧ (redisLimiter.allowN ⟨1, 5, 1, false⟩ 1 1 5 0 (some (3, 0))
      ⟨false, false, false, true⟩).1 = false := by
  have he : elapsedIntervals 0 0 1 = 0 := by decide
  have h4 : (1 : ℚ) ≤ refilled 3 0 0 1 5 1 := by
    simp only [refilled, he]
    norm_num
  exact ⟨(C3_fail_open ⟨1, 5, 1, true⟩ 1 1 5 0 none 3 0
      ⟨true, false, false, false⟩).1 rfl,
    (C3_fail_open ⟨1, 5, 1, false⟩ 1 1 5 0 none 3 0
      ⟨false, true, false, false⟩).2.1 rfl rfl,
    (C3_fail_open ⟨1, 5, 1, true⟩ 1 1 5 0 none 3 0
      ⟨false, false, true, false⟩).2.2.1 rfl rfl,
    (C3_fail_open ⟨1, 5, 1, false⟩ 1 1 5 0 none 3 0
      ⟨false, false, false, true⟩).2.2.2.1 rfl rfl rfl h4⟩

/-- C6: for the shared-store backend, whenever a call on an existing
decodable key is rejected — the refilled token count is strictly below `n` —
no write is issued: the call returns false and the stored record is exactly
what it was before the call, so the refill computed during the call is not
persisted. -/
theorem C6_reject_no_write (cfg : RConfig) (n : ℤ) (rate : ℚ) (burst : ℤ)
    (tokens : ℚ) (last now : ℤ) (f : Faults)
    (hr : f.readFail = false) (hd : f.decodeFail = false)
    (hlt : refilled tokens last now rate burst cfg.interval < (n : ℚ)) :
    redisLimiter.allowN cfg n rate burst now (some (tokens, last)) f
      = (false, some (tokens, last)) :=
  allowN_reject cfg n rate burst tokens last now f hr hd hlt

/-- Witness for C6 at a concrete input: an empty bucket rejects n = 1 and
leaves the stored record untouched. -/
theorem C6_reject_no_write_witness :
    redisLimiter.allowN ⟨1, 5, 1, false⟩ 1 1 5 0 (some (0, 0)) noFaults
      = (false, some (0, 0)) := by
  have he : elapsedIntervals 0 0 1 = 0 := by decide
  have hlt : refilled 0 0 0 1 5 1 < (1 : ℚ) := by
    simp only [refilled, he]
    norm_num
  exact C6_reject_no_write ⟨1, 5, 1, false⟩ 1 1 5 0 0 0 noFaults rfl rfl hlt

/-- The local backend rejects every call whose `n` exceeds the burst supplied
to — and thereby made effective by — the call, whatever bucket is stored and
whatever configuration it carried. -/
lemma inMemory_reject_all (i n : ℤ) (rate : ℚ) (burst now : ℤ)
    (st : Option LocalBucket) (hn : burst < n) :
    (inMemoryLimiter.allowN i n rate burst now st).1 = false := by
  have hb : (burst : ℚ) < (n : ℚ) := by exact_mod_cast hn
  cases st with
  | none =>
    have hs : (inMemoryLimiter.settle i (gtrunc now i)
        ⟨(burst : ℚ), gtrunc now i, rate, burst⟩).tokens < (n : ℚ) :=
      lt_of_le_of_lt (settle_tokens_le i (gtrunc now i) _) hb
    simp only [inMemoryLimiter.allowN, if_pos hs]
  | some bk =>
    by_cases h : bk.erate = rate ∧ bk.eburst = burst
    · obtain ⟨h1, h2⟩ := h
      have hs : (inMemoryLimiter.settle i (gtrunc now i) bk).tokens
          < (n : ℚ) :=
        lt_of_le_of_lt (settle_tokens_le i (gtrunc now i) bk) (h2 ▸ hb)
      simp only [inMemoryLimiter.allowN, h1, h2, and_self, if_true,
        if_pos hs]
    · have hs : (inMemoryLimiter.settle i (gtrunc now i)
          ⟨(inMemoryLimiter.settle i (gtrunc now i) bk).tokens,
            (inMemoryLimiter.settle i (gtrunc now i) bk).last, rate,
            burst⟩).tokens < (n : ℚ) :=
        lt_of_le_of_lt (settle_tokens_le i (gtrunc now i) _) hb
      simp only [inMemoryLimiter.allowN, if_neg h, if_pos hs]

/-- C1 counterexample: the claim predicts false whenever n exceeds the
effective burst, including a key's very first touch and the disabled backend,
yet a first touch of the shared-store backend with burst 5 and n = 6 returns
true (writing an initialization record), and the disabled backend returns
true for n = 1 although the spec fixes its burst at 0. -/
theorem C1_counterexample :
    (redisLimiter.allowN ⟨1, 5, 1, false⟩ 6 1 5 0 none noFaults).1 = true
    ∧ disabledLimiter.AllowN "k" 1 = true := by
  constructor
  · rw [allowN_none_eq ⟨1, 5, 1, false⟩ 6 1 5 0 noFaults rfl rfl]
  · rfl

/-- C1 amended: for the shared-store backend on an existing decodable key,
`AllowN` with `n` greater than the effective burst returns false and leaves
the stored record unchanged; for the local backend it returns false on every
key — fresh or existing, whatever configuration the bucket carried — and
consumes nothing, the bucket being returned verbatim whenever its effective
configuration already matches the call (a differing stored configuration is
re-aligned to the call's values, as on every local call); but the
shared-store backend's very first touch of a key returns true for every `n`
(writing its initialization record), and the disabled backend always returns
true. -/
theorem C1_amended (cfg : RConfig) (n : ℤ) (rate : ℚ) (burst : ℤ)
    (tokens : ℚ) (last now i : ℤ) (bk : LocalBucket) (f : Faults)
    (key : String) (hr : f.readFail = false) (hd : f.decodeFail = false)
    (hn : burst < n) :
    redisLimiter.allowN cfg n rate burst now (some (tokens, last)) f
      = (false, some (tokens, last))
    ∧ (∀ st : Option LocalBucket,
        (inMemoryLimiter.allowN i n rate burst now st).1 = false)
    ∧ (bk.erate = rate → bk.eburst = burst →
        inMemoryLimiter.allowN i n rate burst now (some bk) = (false, bk))
    ∧ (f.initFail = false →
        (redisLimiter.allowN cfg n rate burst now none f).1 = true)
    ∧ disabledLimiter.AllowN key n = true := by
  have hb : (burst : ℚ) < (n : ℚ) := by exact_mod_cast hn
  refine ⟨?_, fun st => inMemory_reject_all i n rate burst now st hn,
    ?_, ?_, rfl⟩
  · exact allowN_reject cfg n rate burst tokens last now f hr hd
      (lt_of_le_of_lt (refilled_le_burst tokens last now rate burst
        cfg.interval) hb)
  · intro h1 h2
    have hs : (inMemoryLimiter.settle i (gtrunc now i) bk).tokens < (n : ℚ) :=
      lt_of_le_of_lt (settle_tokens_le i (gtrunc now i) bk) (h2 ▸ hb)
    simp only [inMemoryLimiter.allowN, h1, h2, and_self, if_true, if_pos hs]
  · intro hi
    rw [allowN_none_eq cfg n rate burst now f hr hi]

/-- Witness for C1 amended at concrete inputs: burst 5, n = 7, exercising the
local-backend conjunct both on a fresh key and on a bucket whose stored
configuration differs from the call. -/
theorem C1_amended_witness :
    redisLimiter.allowN ⟨1, 5, 1, false⟩ 7 1 5 10 (some (3, 0)) noFaults
      = (false, some (3, 0))
    ∧ (inMemoryLimiter.allowN 1 7 1 5 10 none).1 = false
    ∧ (inMemoryLimiter.allowN 1 7 1 5 10 (some ⟨3, 0, 2, 9⟩)).1 = false
    ∧ inMemoryLimiter.allowN 1 7 1 5 10 (some ⟨3, 0, 1, 5⟩)
      = (false, ⟨3, 0, 1, 5⟩)
    ∧ (redisLimiter.allowN ⟨1, 5, 1, false⟩ 7 1 5 10 none noFaults).1 = true
    ∧ disabledLimiter.AllowN "k" 7 = true := by
  obtain ⟨a, b, c, d, e⟩ := C1_amended ⟨1, 5, 1, false⟩ 7 1 5 3 0 10 1
    ⟨3, 0, 1, 5⟩ noFaults "k" rfl rfl (by decide)
  exact ⟨a, b none, b (some ⟨3, 0, 2, 9⟩), c rfl rfl, d rfl, e⟩

/-- C4: the refilled token count computed before consumption equals
`min(tokens + elapsedIntervals * rate, burst)`; at `k` whole intervals after
the truncated last refill it equals `min(tokens + k * rate, burst)`, so
waiting `k` whole intervals without consuming raises the available tokens by
exactly `k * rate` capped at `burst`; it is monotone in `k` for a
non-negative rate and never exceeds `burst`. -/
theorem C4_refill (tokens rate : ℚ) (burst i last : ℤ) (k k' : ℕ)
    (hi : 0 < i) (hrate : 0 ≤ rate) :
    (∀ now, refilled tokens last now rate burst i
      = min (tokens + (elapsedIntervals last now i : ℚ) * rate) (burst : ℚ))
    ∧ refilled tokens last (gtrunc last i + (k : ℤ) * i) rate burst i
      = min (tokens + (k : ℚ) * rate) (burst : ℚ)
    ∧ (k ≤ k' →
      refilled tokens last (gtrunc last i + (k : ℤ) * i) rate burst i
        ≤ refilled tokens last (gtrunc last i + (k' : ℤ) * i) rate burst i)
    ∧ ∀ now, refilled tokens last now rate burst i ≤ (burst : ℚ) := by
  have hkey : ∀ m : ℕ, elapsedIntervals last (gtrunc last i + (m : ℤ) * i) i
      = (m : ℤ) := by
    intro m
    have : gtrunc last i + (m : ℤ) * i - gtrunc last i = (m : ℤ) * i := by
      ring
    rw [elapsedIntervals, this, goDiv, Int.mul_tdiv_cancel _ (ne_of_gt hi)]
  have hform : ∀ m : ℕ,
      refilled tokens last (gtrunc last i + (m : ℤ) * i) rate burst i
        = min (tokens + (m : ℚ) * rate) (burst : ℚ) := by
    intro m
    rw [refilled, hkey m]
    norm_num
  refine ⟨fun _ => rfl, hform k, ?_, fun _ => min_le_right _ _⟩
  intro hkk
  rw [hform k, hform k']
  apply min_le_min _ le_rfl
  have : (k : ℚ) ≤ (k' : ℚ) := by exact_mod_cast hkk
  nlinarith

/-- Witness for C4 at concrete inputs: tokens 1, rate 3, burst 10,
interval 2, last 5, waiting 1 and 3 intervals. -/
theorem C4_refill_witness :
    refilled 1 5 (gtrunc 5 2 + 1 * 2) 3 10 2 = min ((1 : ℚ) + 1 * 3) 10
    ∧ refilled 1 5 (gtrunc 5 2 + 1 * 2) 3 10 2
      ≤ refilled 1 5 (gtrunc 5 2 + 3 * 2) 3 10 2
    ∧ refilled 1 5 7 3 10 2 ≤ (10 : ℚ) := by
  obtain ⟨a, b, c, d⟩ := C4_refill 1 3 10 2 5 1 3 (by decide) (by norm_num)
  refine ⟨?_, ?_, d 7⟩
  · have := b
    norm_num at this ⊢
    exact this
  · have := c (by decide)
    norm_num at this ⊢
    exact this

/-- C5 counterexample: at burst 0 (the claim's own example) with truncated
current time 100, the first touch writes the record `(100, -1)` — the
head-first `LPUSH` puts the timestamp 100 into the tokens field, which
exceeds the effective burst 0 (and `burst - 1 = -1` lands in the lastRefill
field) — against the claim that every written tokens value lies within
`[0, the effective burst]`. -/
theorem C5_counterexample :
    redisLimiter.allowN ⟨1, 0, 1, false⟩ 1 1 0 100 none noFaults
      = (true, some (100, -1))
    ∧ ((0 : ℚ) < 100) := by
  refine ⟨?_, by norm_num⟩
  rw [allowN_none_eq ⟨1, 0, 1, false⟩ 1 1 0 100 noFaults rfl rfl]
  norm_num [gtrunc]

/-- C5 amended: on the write-back path of an accepted call (the indexed
`LSET`s of limiter.go 198-199) with `n` non-negative, the tokens value
written — `min(tokens + allotment, burst) - n` — lies within
`[0, the effective burst]`; the first-touch initialization instead writes the
truncated timestamp into the tokens field (non-negative whenever the clock
is, but unbounded by the burst) and `burst - 1` into the lastRefill field,
and an accepted call with negative `n` can write above the burst. -/
theorem C5_amended (cfg : RConfig) (n : ℤ) (rate : ℚ) (burst : ℤ)
    (tokens : ℚ) (last now : ℤ) (f : Faults) (hr : f.readFail = false) :
    (f.initFail = false →
      redisLimiter.allowN cfg n rate burst now none f
        = (true, some (((gtrunc now cfg.interval : ℤ) : ℚ), burst - 1))
      ∧ (0 ≤ now → 0 ≤ ((gtrunc now cfg.interval : ℤ) : ℚ)))
    ∧ (f.decodeFail = false → f.execFail = false → 0 ≤ n →
      (n : ℚ) ≤ refilled tokens last now rate burst cfg.interval →
      redisLimiter.allowN cfg n rate burst now (some (tokens, last)) f
        = (true, some (refilled tokens last now rate burst cfg.interval
            - (n : ℚ), gtrunc now cfg.interval))
      ∧ 0 ≤ refilled tokens last now rate burst cfg.interval - (n : ℚ)
      ∧ refilled tokens last now rate burst cfg.interval - (n : ℚ)
          ≤ (burst : ℚ)) := by
  constructor
  · intro hi
    refine ⟨allowN_none_eq cfg n rate burst now f hr hi, fun hnow => ?_⟩
    exact_mod_cast gtrunc_nonneg now cfg.interval hnow
  · intro hd he hn0 hge
    have hn0q : (0 : ℚ) ≤ (n : ℚ) := by exact_mod_cast hn0
    have hle := refilled_le_burst tokens last now rate burst cfg.interval
    refine ⟨?_, by linarith, by linarith⟩
    rw [allowN_some_eq cfg n rate burst tokens last now f hr hd,
      if_neg (not_lt.mpr hge), if_neg (by rw [he]; exact Bool.false_ne_true)]

/-- Witness for C5 amended at concrete inputs: a first touch at time 9 with
interval 2 writes the record (8, 4), tokens field non-negative; consuming 2
of 3 refilled tokens writes 1, which lies in [0, 5]. -/
theorem C5_amended_witness :
    (redisLimiter.allowN ⟨1, 5, 2, false⟩ 1 1 5 9 none noFaults
      = (true, some (8, 4))
      ∧ (0 : ℚ) ≤ 8)
    ∧ (redisLimiter.allowN ⟨1, 5, 1, false⟩ 2 1 5 0 (some (3, 0)) noFaults
      = (true, some (1, 0))
      ∧ (0 : ℚ) ≤ 1 ∧ (1 : ℚ) ≤ 5) := by
  have he : elapsedIntervals 0 0 1 = 0 := by decide
  have hrf : refilled 3 0 0 1 5 1 = 3 := by
    simp only [refilled, he]
    norm_num
  obtain ⟨pA, _⟩ := C5_amended ⟨1, 5, 2, false⟩ 1 1 5 3 0 9 noFaults rfl
  obtain ⟨_, pB⟩ := C5_amended ⟨1, 5, 1, false⟩ 2 1 5 3 0 0 noFaults rfl
  obtain ⟨eA, _⟩ := pA rfl
  obtain ⟨eB, lB, uB⟩ := pB rfl rfl (by decide) (by rw [hrf]; norm_num)
  constructor
  · refine ⟨?_, by norm_num⟩
    rw [eA]
    norm_num [gtrunc]
  · refine ⟨?_, by norm_num, by norm_num⟩
    rw [eB, hrf]
    norm_num [gtrunc]

/-- C7 counterexample: with interval 1, a stored `lastRefill` of 13 and a
current time of 10 (clock skew: the stored time is in the future), the
computed number of elapsed intervals is -3, not zero, and with rate 1,
stored tokens 5 and burst 10 the refill computation yields 2, strictly below
the stored 5 — the claim says the allotment is treated as zero or positive
and never decreases the token count. -/
theorem C7_counterexample :
    elapsedIntervals 13 10 1 = -3
    ∧ refilled 5 13 10 1 10 1 = 2
    ∧ (2 : ℚ) < 5 := by
  have he : elapsedIntervals 13 10 1 = -3 := by decide
  refine ⟨he, ?_, by norm_num⟩
  rw [refilled, he]
  norm_num

/-- C7 amended: whenever the truncated stored `lastRefill` is not after the
current time, the number of elapsed intervals is non-negative, and — for a
non-negative rate and a stored token count not above the burst — the refill
computation never decreases the token count below the stored value; a
`lastRefill` far enough in the future yields a negative allotment that can
decrease the token count. -/
theorem C7_amended (tokens rate : ℚ) (burst i last now : ℤ)
    (hi : 0 < i) (hl : gtrunc last i ≤ now) (hrate : 0 ≤ rate)
    (ht : tokens ≤ (burst : ℚ)) :
    0 ≤ elapsedIntervals last now i
    ∧ tokens ≤ refilled tokens last now rate burst i := by
  have h0 : 0 ≤ now - gtrunc last i := sub_nonneg.mpr hl
  have he : 0 ≤ elapsedIntervals last now i := by
    rw [elapsedIntervals, goDiv]
    exact Int.tdiv_nonneg h0 (le_of_lt hi)
  refine ⟨he, ?_⟩
  have hm : (0 : ℚ) ≤ (elapsedIntervals last now i : ℚ) * rate :=
    mul_nonneg (by exact_mod_cast he) hrate
  rw [refilled]
  exact le_min (by linarith) ht

/-- Witness for C7 amended at concrete inputs: last 0, now 5, interval 1,
rate 1, tokens 3, burst 10. -/
theorem C7_amended_witness :
    0 ≤ elapsedIntervals 0 5 1 ∧ (3 : ℚ) ≤ refilled 3 0 5 1 10 1 :=
  C7_amended 3 1 10 1 0 5 (by decide) (by decide) (by norm_num)
    (by norm_num)

/-- The bucket returned by the local backend's `allowN` always carries the
rate and burst supplied to the call as its effective configuration. -/
lemma inMemory_allowN_config (i n : ℤ) (rate : ℚ) (burst now : ℤ)
    (st : Option LocalBucket) :
    ((inMemoryLimiter.allowN i n rate burst now st).2).erate = rate
    ∧ ((inMemoryLimiter.allowN i n rate burst now st).2).eburst = burst := by
  cases st with
  | none =>
    simp only [inMemoryLimiter.allowN]
    split
    · exact ⟨rfl, rfl⟩
    · exact ⟨rfl, rfl⟩
  | some bk =>
    by_cases h : bk.erate = rate ∧ bk.eburst = burst
    · simp only [inMemoryLimiter.allowN, if_pos h]
      split
      · exact ⟨h.1, h.2⟩
      · exact ⟨h.1, h.2⟩
    · simp only [inMemoryLimiter.allowN, if_neg h]
      split
      · exact ⟨rfl, rfl⟩
      · exact ⟨rfl, rfl⟩

/-- C8 counterexample: with default rate 0 and burst 10,
`AllowNDynamic(k, 1, rate 5, burst 1)` on a fresh key accepts and stores the
record `(0, 0)`, which carries no rate or burst; 100 intervals later a plain
`Allow(k)` is rejected, although a call under the override's rate 5 and
burst 1 would accept — so the dynamic rate/burst was not persisted as the
key's effective configuration. -/
theorem C8_counterexample :
    redisLimiter.AllowNDynamic ⟨0, 10, 1, false⟩ 1 5 1 0 none noFaults
      = (true, some (0, 0))
    ∧ redisLimiter.Allow ⟨0, 10, 1, false⟩ 100 (some (0, 0)) noFaults
      = (false, some (0, 0))
    ∧ (redisLimiter.AllowNDynamic ⟨0, 10, 1, false⟩ 1 5 1 100 (some (0, 0))
        noFaults).1 = true := by
  have he : elapsedIntervals 0 100 1 = 100 := by decide
  refine ⟨?_, ?_, ?_⟩
  · show redisLimiter.allowN ⟨0, 10, 1, false⟩ 1 5 1 0 none noFaults
      = (true, some (0, 0))
    rw [allowN_none_eq ⟨0, 10, 1, false⟩ 1 5 1 0 noFaults rfl rfl]
    norm_num [gtrunc]
  · show redisLimiter.allowN ⟨0, 10, 1, false⟩ 1 0 10 100 (some (0, 0))
      noFaults = (false, some (0, 0))
    apply allowN_reject ⟨0, 10, 1, false⟩ 1 0 10 0 0 100 noFaults rfl rfl
    simp only [refilled, he]
    norm_num
  · have hge : ¬ (refilled 0 0 100 5 1 1 < (1 : ℚ)) := by
      simp only [refilled, he]
      norm_num
    simp [redisLimiter.AllowNDynamic, redisLimiter.allowN, noFaults, hge]

/-- C8 amended: `AllowNDynamic(key, n, rate, burst)` uses the given rate and
burst — not the configured defaults — for that call's admission decision on
every backend; the local in-memory backend persists them as the key's
effective configuration, established on first access and kept until a later
call supplies different values; the shared-store backend persists only the
token count and last-refill time (in particular, the record written on first
touch is the same for every given rate), so there the override governs only
the call that supplies it. -/
theorem C8_amended (cfg : RConfig) (n : ℤ) (rate : ℚ) (burst : ℤ)
    (now i : ℤ) (st : Option (ℚ × ℤ)) (lst : Option LocalBucket)
    (f : Faults) :
    redisLimiter.AllowNDynamic cfg n rate burst now st f
      = redisLimiter.allowN cfg n rate burst now st f
    ∧ (f.readFail = false → f.initFail = false → ∀ rate2 : ℚ,
      (redisLimiter.allowN cfg n rate burst now none f).2
        = (redisLimiter.allowN cfg n rate2 burst now none f).2)
    ∧ (inMemoryLimiter.allowN i n rate burst now lst).2.erate = rate
    ∧ (inMemoryLimiter.allowN i n rate burst now lst).2.eburst = burst := by
  refine ⟨rfl, ?_, inMemory_allowN_config i n rate burst now lst⟩
  intro h1 h2 rate2
  rw [allowN_none_eq cfg n rate burst now f h1 h2,
    allowN_none_eq cfg n rate2 burst now f h1 h2]

/-- Witness for C8 amended at concrete inputs: rates 2 and 7, burst 5. -/
theorem C8_amended_witness :
    redisLimiter.AllowNDynamic ⟨1, 5, 1, false⟩ 1 2 5 0 none noFaults
      = redisLimiter.allowN ⟨1, 5, 1, false⟩ 1 2 5 0 none noFaults
    ∧ (redisLimiter.allowN ⟨1, 5, 1, false⟩ 1 2 5 0 none noFaults).2
      = (redisLimiter.allowN ⟨1, 5, 1, false⟩ 1 7 5 0 none noFaults).2
    ∧ (inMemoryLimiter.allowN 1 1 2 5 0 none).2.erate = 2
    ∧ (inMemoryLimiter.allowN 1 1 2 5 0 none).2.eburst = 5 := by
  obtain ⟨a, b, c⟩ := C8_amended ⟨1, 5, 1, false⟩ 1 2 5 0 1 none none noFaults
  exact ⟨a, b rfl rfl 7, c⟩

/-- C9: every backend reports its default configured rate and burst through
`Rate()` and `Burst()` — functions of the construction-time configuration
only, hence independent of any per-key override — and the disabled backend's
`Rate()` is the maximum representable float64 value, `(2^53 - 1) * 2^971`,
while its `Burst()` is 0. -/
theorem C9_rate_burst (cfg : RConfig) (c : IMConfig) :
    redisLimiter.Rate cfg = cfg.rate
    ∧ redisLimiter.Burst cfg = cfg.burst
    ∧ inMemoryLimiter.Rate c = c.rate
    ∧ inMemoryLimiter.Burst c = c.burst
    ∧ disabledLimiter.Rate = disabledLimiter.maxFloat64
    ∧ disabledLimiter.Burst = 0
    ∧ disabledLimiter.maxFloat64 = ((2 : ℚ) ^ 53 - 1) * 2 ^ 971 :=
  ⟨rfl, rfl, rfl, rfl, rfl, rfl, rfl⟩

/-- C10 counterexample: on an existing decodable key, a call with n = -1 on
stored tokens 0 (burst 5) is accepted and writes back 1, which does not
exceed the burst of 5 — against the claim that any accepted n < 0 writes a
count strictly exceeding the burst — and a call with n = -3 on stored
tokens -10 returns false, against the claim that n ≤ 0 always returns
true. -/
theorem C10_counterexample :
    redisLimiter.allowN ⟨1, 5, 1, false⟩ (-1) 1 5 0 (some (0, 0)) noFaults
      = (true, some (1, 0))
    ∧ ((1 : ℚ) ≤ 5)
    ∧ (redisLimiter.allowN ⟨1, 5, 1, false⟩ (-3) 1 5 0 (some (-10, 0))
        noFaults).1 = false := by
  have he : elapsedIntervals 0 0 1 = 0 := by decide
  refine ⟨?_, by norm_num, ?_⟩
  · have hge : ¬ (refilled 0 0 0 1 5 1 < ((-1 : ℤ) : ℚ)) := by
      simp only [refilled, he]
      norm_num
    simp only [redisLimiter.allowN, noFaults, Bool.false_eq_true, if_false,
      if_neg hge]
    have hrf : refilled 0 0 0 1 5 1 = 0 := by
      simp only [refilled, he]
      norm_num
    rw [hrf]
    norm_num [gtrunc]
  · have hlt : refilled (-10) 0 0 1 5 1 < ((-3 : ℤ) : ℚ) := by
      simp only [refilled, he]
      norm_num
    rw [allowN_reject ⟨1, 5, 1, false⟩ (-3) 1 5 (-10) 0 0 noFaults rfl rfl
      hlt]

/-- C10 amended: for the shared-store backend on an existing decodable key
with a fault-free call, n ≤ 0 returns true whenever the refilled token count
is non-negative; and an accepted call with n < 0 writes back
`min(tokens + allotment, burst) - n`, which strictly exceeds the refilled
count itself, and strictly exceeds the effective burst precisely when the
refilled count exceeds `burst + n` — in particular whenever the refilled
bucket was full. -/
theorem C10_amended (cfg : RConfig) (n : ℤ) (rate : ℚ) (burst : ℤ)
    (tokens : ℚ) (last now : ℤ) (f : Faults)
    (hr : f.readFail = false) (hd : f.decodeFail = false)
    (he : f.execFail = false) :
    (n ≤ 0 → 0 ≤ refilled tokens last now rate burst cfg.interval →
      (redisLimiter.allowN cfg n rate burst now (some (tokens, last)) f).1
        = true)
    ∧ (n < 0 → (n : ℚ) ≤ refilled tokens last now rate burst cfg.interval →
      redisLimiter.allowN cfg n rate burst now (some (tokens, last)) f
        = (true, some (refilled tokens last now rate burst cfg.interval
            - (n : ℚ), gtrunc now cfg.interval))
      ∧ refilled tokens last now rate burst cfg.interval
          < refilled tokens last now rate burst cfg.interval - (n : ℚ)
      ∧ ((burst : ℚ)
            < refilled tokens last now rate burst cfg.interval - (n : ℚ)
          ↔ (burst : ℚ) + (n : ℚ)
            < refilled tokens last now rate burst cfg.interval)
      ∧ (refilled tokens last now rate burst cfg.interval = (burst : ℚ) →
          (burst : ℚ) < refilled tokens last now rate burst cfg.interval
            - (n : ℚ))) := by
  have hex : ¬ (f.execFail = true) := by rw [he]; exact Bool.false_ne_true
  constructor
  · intro hn h0
    have hnq : (n : ℚ) ≤ 0 := by exact_mod_cast hn
    rw [allowN_some_eq cfg n rate burst tokens last now f hr hd,
      if_neg (not_lt.mpr (le_trans hnq h0)), if_neg hex]
  · intro hn hge
    have hnq : (n : ℚ) < 0 := by exact_mod_cast hn
    refine ⟨?_, by linarith, ⟨fun h => by linarith, fun h => by linarith⟩,
      fun hfull => by rw [← hfull]; linarith⟩
    rw [allowN_some_eq cfg n rate burst tokens last now f hr hd,
      if_neg (not_lt.mpr hge), if_neg hex]

/-- Witness for C10 amended at a concrete input: a full bucket (tokens 5,
burst 5) accepts n = -2 and writes back 7, above the burst. -/
theorem C10_amended_witness :
    (redisLimiter.allowN ⟨1, 5, 1, false⟩ (-2) 1 5 0 (some (5, 0))
      noFaults).1 = true
    ∧ redisLimiter.allowN ⟨1, 5, 1, false⟩ (-2) 1 5 0 (some (5, 0)) noFaults
      = (true, some (7, 0))
    ∧ (5 : ℚ) < 7 := by
  have he0 : elapsedIntervals 0 0 1 = 0 := by decide
  have hrf : refilled 5 0 0 1 5 1 = 5 := by
    simp only [refilled, he0]
    norm_num
  obtain ⟨p1, p2⟩ := C10_amended ⟨1, 5, 1, false⟩ (-2) 1 5 5 0 0 noFaults
    rfl rfl rfl
  obtain ⟨e2, hlt, hiff, hfull⟩ := p2 (by decide) (by rw [hrf]; norm_num)
  refine ⟨p1 (by decide) (by rw [hrf]; norm_num), ?_, by norm_num⟩
  rw [e2, hrf]
  norm_num [gtrunc]
